import Mathlib

/-
Verification development for the Baseball-tracker repository.

The embedding models the two source files:
  - scrape_schedule.py : field normalizers (parse_date, parse_time,
    normalize_tv), the Sidearm print-page row pipeline (header column
    detection, per-row record extraction), the list-layout fallback,
    and the Google-Sheets reconciliation step of main().
  - scraper.py : the stat column maps, map_row / zero_stats / scrape /
    find_table / align_headers, and the current-state and history writers.

Modelling conventions:
  - Python strings are Lean String values; regular-expression searches are
    translated to explicit left-to-right scanners over List Char with the
    same backtracking order as the source patterns.  Character classes are
    modelled over ASCII, matching the data this scraper handles.
  - Google-Sheets tables are lists of rows; get_all_records round-trips rows
    through the fixed column schema, so a persisted schedule table is
    modelled as a List Game and a stats table as a list of cell-rows.
  - Python float arithmetic inside map_row is modelled over Rat; the
    control flow (which keys get inserted) only depends on sign tests of
    decimal literals, which agree between Rat and IEEE doubles.
-/

/-- ASCII decimal digit test, the model of the regex class \d. -/
def isDigitC (c : Char) : Bool :=
  c == '0' || c == '1' || c == '2' || c == '3' || c == '4' ||
  c == '5' || c == '6' || c == '7' || c == '8' || c == '9'

/-- Python str whitespace and the regex class \s (ASCII part). -/
def pyIsSpace (c : Char) : Bool :=
  c == ' ' || c == '\t' || c == '\n' || c == '\r' ||
  c == Char.ofNat 11 || c == Char.ofNat 12

/-- ASCII uppercase letter test. -/
def isUpperC (c : Char) : Bool := decide ('A' ≤ c) && decide (c ≤ 'Z')

/-- ASCII lowercase letter test. -/
def isLowerC (c : Char) : Bool := decide ('a' ≤ c) && decide (c ≤ 'z')

/-- Word character for the regex boundary \b (ASCII part of \w). -/
def isWordCharC (c : Char) : Bool := isUpperC c || isLowerC c || isDigitC c || c == '_'

/-- Word-character test lifted to an optional character (none = string edge). -/
def wordO : Option Char → Bool
  | none => false
  | some c => isWordCharC c

/-- Drop trailing Python whitespace from a character list. -/
def dropTrailingSp : List Char → List Char
  | [] => []
  | c :: cs =>
    match dropTrailingSp cs, pyIsSpace c with
    | [], true => []
    | r, _ => c :: r

/-- Model of Python str.strip() on a character list. -/
def pyStripL (l : List Char) : List Char := dropTrailingSp (l.dropWhile pyIsSpace)

/-- Model of Python str.strip() on a string. -/
def pyStrip (s : String) : String := ⟨pyStripL s.data⟩

/-- Lowercase a string (model of str.lower, ASCII). -/
def strLower (s : String) : String := ⟨s.data.map Char.toLower⟩

/-- Numeric value of a list of decimal digits (model of int() on a digit group). -/
def digitsVal (l : List Char) : Nat := l.foldl (fun n c => n * 10 + (c.toNat - 48)) 0

/-- Zero-padded two-digit rendering, the model of the %02d format. -/
def pad2 (n : Nat) : String := if n < 10 then "0" ++ toString n else toString n

/-- Case-sensitive pattern-leads test (pattern, text). -/
def leadsWith : List Char → List Char → Bool
  | [], _ => true
  | _ :: _, [] => false
  | p :: ps, c :: cs => p == c && leadsWith ps cs

/-- Case-insensitive pattern-leads test; the pattern is given lowercased. -/
def ciLeads : List Char → List Char → Bool
  | [], _ => true
  | _ :: _, [] => false
  | p :: ps, c :: cs => c.toLower == p && ciLeads ps cs

/-- Substring containment (model of the Python `in` operator on str). -/
def containsSub (pat : List Char) : List Char → Bool
  | [] => leadsWith pat []
  | c :: t => leadsWith pat (c :: t) || containsSub pat t

/-- Take exactly n decimal digits from the front of a list. -/
def takeExactDigits : Nat → List Char → Option (List Char × List Char)
  | 0, l => some ([], l)
  | _ + 1, [] => none
  | n + 1, c :: t =>
    if isDigitC c then
      match takeExactDigits n t with
      | some (ds, rest) => some (c :: ds, rest)
      | none => none
    else none

/- ───────────── parse_date (scrape_schedule.py lines 85-117) ───────────── -/

/-- Match of the ISO pattern (\d 4)-(\d 2)-(\d 2) at the current position;
returns the matched ten characters (which the source reassembles unchanged). -/
def isoAt : List Char → Option (List Char)
  | c1 :: c2 :: c3 :: c4 :: c5 :: c6 :: c7 :: c8 :: c9 :: c10 :: _ =>
    if isDigitC c1 && isDigitC c2 && isDigitC c3 && isDigitC c4 && c5 == '-' &&
       isDigitC c6 && isDigitC c7 && c8 == '-' && isDigitC c9 && isDigitC c10
    then some [c1, c2, c3, c4, c5, c6, c7, c8, c9, c10] else none
  | _ => none

/-- Leftmost search for the ISO date pattern, as re.search does. -/
def isoSearch : List Char → Option (List Char)
  | [] => none
  | c :: t =>
    match isoAt (c :: t) with
    | some r => some r
    | none => isoSearch t

/-- One or two digits followed by a slash, trying the greedy length first. -/
def tryDigitsSlash (n : Nat) (l : List Char) : Option (List Char × List Char) :=
  match takeExactDigits n l with
  | some (ds, '/' :: rest) => some (ds, rest)
  | _ => none

/-- Year group \d 2,4 with a trailing word boundary, greedy order 4, 3, 2. -/
def tryG3 (n : Nat) (l : List Char) : Option (List Char) :=
  match takeExactDigits n l with
  | some (ds, rest) => if wordO rest.head? then none else some ds
  | none => none

/-- All greedy lengths for the year group of the slash date pattern. -/
def slashG3 (l : List Char) : Option (List Char) :=
  match tryG3 4 l with
  | some ds => some ds
  | none =>
    match tryG3 3 l with
    | some ds => some ds
    | none => tryG3 2 l

/-- After month and first slash: day group then slash then year group,
with the backtracking order of \d 1,2 (two digits first). -/
def slashAfterG1 (g1 : List Char) (l : List Char) : Option (List Char × List Char × List Char) :=
  match tryDigitsSlash 2 l with
  | some (g2, r2) =>
    match slashG3 r2 with
    | some g3 => some (g1, g2, g3)
    | none =>
      match tryDigitsSlash 1 l with
      | some (g2b, r2b) =>
        match slashG3 r2b with
        | some g3 => some (g1, g2b, g3)
        | none => none
      | none => none
  | none =>
    match tryDigitsSlash 1 l with
    | some (g2, r2) =>
      match slashG3 r2 with
      | some g3 => some (g1, g2, g3)
      | none => none
    | none => none

/-- One-digit month fallback for the slash date pattern. -/
def slashG1One (l : List Char) : Option (List Char × List Char × List Char) :=
  match tryDigitsSlash 1 l with
  | some (g1, r1) => slashAfterG1 g1 r1
  | none => none

/-- Match of \b(\d 1,2)/(\d 1,2)/(\d 2,4)\b at the current position. -/
def slashAt (prev : Option Char) (l : List Char) : Option (List Char × List Char × List Char) :=
  if wordO prev then none
  else
    match tryDigitsSlash 2 l with
    | some (g1, r1) =>
      match slashAfterG1 g1 r1 with
      | some r => some r
      | none => slashG1One l
    | none => slashG1One l

/-- Leftmost search for the slash date pattern. -/
def slashSearch : Option Char → List Char → Option (List Char × List Char × List Char)
  | _, [] => none
  | prev, c :: t =>
    match slashAt prev (c :: t) with
    | some r => some r
    | none => slashSearch (some c) t

/-- The month-name alternation of parse_date, in the order written in the
source pattern, each with its MONTH_MAP number. -/
def MONTH_ALTS : List (List Char × Nat) :=
  [("january".data, 1), ("february".data, 2), ("march".data, 3), ("april".data, 4),
   ("may".data, 5), ("june".data, 6), ("july".data, 7), ("august".data, 8),
   ("september".data, 9), ("october".data, 10), ("november".data, 11), ("december".data, 12),
   ("jan".data, 1), ("feb".data, 2), ("mar".data, 3), ("apr".data, 4),
   ("jun".data, 6), ("jul".data, 7), ("aug".data, 8), ("sep".data, 9),
   ("oct".data, 10), ("nov".data, 11), ("dec".data, 12)]

/-- Day group of the month-name pattern: one or two digits, greedy. -/
def monthDay (l : List Char) : Option (List Char × List Char) :=
  match l with
  | a :: b :: rest =>
    if isDigitC a then
      (if isDigitC b then some ([a, b], rest) else some ([a], b :: rest))
    else none
  | [a] => if isDigitC a then some ([a], []) else none
  | [] => none

/-- Optional ordinal suffix st|nd|rd|th (case-insensitive). -/
def ordinalDrop (l : List Char) : List Char :=
  match l with
  | a :: b :: rest =>
    if (a.toLower == 's' && b.toLower == 't') || (a.toLower == 'n' && b.toLower == 'd') ||
       (a.toLower == 'r' && b.toLower == 'd') || (a.toLower == 't' && b.toLower == 'h')
    then rest else a :: b :: rest
  | l => l

/-- Optional year group (?:,?\s*(\d 4))? of the month-name pattern. -/
def yearOpt (l : List Char) : Option Nat :=
  let l1 := match l with | ',' :: t => t | t => t
  let l2 := l1.dropWhile pyIsSpace
  match takeExactDigits 4 l2 with
  | some (ds, _) => some (digitsVal ds)
  | none => none

/-- Completion of the month-name pattern after the name: optional period,
mandatory whitespace, day, optional ordinal, optional year. -/
def monthComplete (l : List Char) : Option (Nat × Option Nat) :=
  let l1 := match l with | '.' :: t => t | t => t
  match l1 with
  | c :: _ =>
    if pyIsSpace c then
      match monthDay (l1.dropWhile pyIsSpace) with
      | some (day, rest) => some (digitsVal day, yearOpt (ordinalDrop rest))
      | none => none
    else none
  | [] => none

/-- Try the month alternatives in the order of the source pattern; a name
that matches but whose completion fails backtracks to later alternatives. -/
def monthTryAlts : List (List Char × Nat) → List Char → Option (Nat × Nat × Option Nat)
  | [], _ => none
  | (pat, mo) :: more, l =>
    if ciLeads pat l then
      match monthComplete (l.drop pat.length) with
      | some (day, yr) => some (mo, day, yr)
      | none => monthTryAlts more l
    else monthTryAlts more l

/-- Match of the month-name date pattern at the current position. -/
def monthAt (prev : Option Char) (l : List Char) : Option (Nat × Nat × Option Nat) :=
  if wordO prev then none else monthTryAlts MONTH_ALTS l

/-- Leftmost search for the month-name date pattern. -/
def monthSearch : Option Char → List Char → Option (Nat × Nat × Option Nat)
  | _, [] => none
  | prev, c :: t =>
    match monthAt prev (c :: t) with
    | some r => some r
    | none => monthSearch (some c) t

/-- Model of parse_date (scrape_schedule.py lines 85-117) on character lists:
strip, then try the ISO pattern, the slash pattern (two-digit years mapped to
2000+YY), and the month-name pattern (missing year replaced by the current
year cy), returning the empty list when nothing matches. -/
def parseDateL (cy : Nat) (text : List Char) : List Char :=
  let t := pyStripL text
  match isoSearch t with
  | some r => r
  | none =>
    match slashSearch none t with
    | some (g1, g2, g3) =>
      let yr := digitsVal g3
      let yr2 := if yr < 100 then yr + 2000 else yr
      (toString yr2).data ++ ('-' :: (pad2 (digitsVal g1)).data) ++ ('-' :: (pad2 (digitsVal g2)).data)
    | none =>
      match monthSearch none t with
      | some (mo, day, yrO) =>
        let yr := match yrO with | some y => y | none => cy
        (toString yr).data ++ ('-' :: (pad2 mo).data) ++ ('-' :: (pad2 day).data)
      | none => []

/-- parse_date of scrape_schedule.py; cy stands for CURRENT_YEAR. -/
def parse_date (cy : Nat) (s : String) : String := ⟨parseDateL cy s.data⟩

/- ───────────── parse_time (scrape_schedule.py lines 120-134) ───────────── -/

/-- Optional meridiem group (a\.?m\.?|p\.?m\.?) after \s*, returning the
lowercased leading letter when the group matches. -/
def meridiemScan (l : List Char) : Option Char :=
  match l.dropWhile pyIsSpace with
  | c :: rest =>
    if c.toLower == 'a' || c.toLower == 'p' then
      match (match rest with | '.' :: t => t | t => t) with
      | m :: _ => if m.toLower == 'm' then some c.toLower else none
      | [] => none
    else none
  | [] => none

/-- Colon, two minute digits and the optional meridiem of the first time
pattern, given the already-matched hour group g1. -/
def time1Colon (g1 : List Char) (l : List Char) : Option (List Char × List Char × Option Char) :=
  match l with
  | ':' :: m1 :: m2 :: rest =>
    if isDigitC m1 && isDigitC m2 then some (g1, [m1, m2], meridiemScan rest) else none
  | _ => none

/-- Match of (\d 1,2):(\d 2)\s*(a\.?m\.?|p\.?m\.?)? at the current position,
with the greedy two-digit hour tried before the one-digit hour. -/
def time1At (l : List Char) : Option (List Char × List Char × Option Char) :=
  match l with
  | a :: rest =>
    if isDigitC a then
      match rest with
      | b :: rest2 =>
        if isDigitC b then
          match time1Colon [a, b] rest2 with
          | some r => some r
          | none => time1Colon [a] rest
        else time1Colon [a] rest
      | [] => none
    else none
  | [] => none

/-- Leftmost search for the colon time pattern. -/
def time1Search : List Char → Option (List Char × List Char × Option Char)
  | [] => none
  | c :: t =>
    match time1At (c :: t) with
    | some r => some r
    | none => time1Search t

/-- Tail of the bare time pattern: \s*(am|pm)\b, returning the lowercased
meridiem letter. -/
def time2Tail (g1 : List Char) (l : List Char) : Option (List Char × Char) :=
  match l.dropWhile pyIsSpace with
  | c :: m :: rest =>
    if (c.toLower == 'a' || c.toLower == 'p') && m.toLower == 'm' && !(wordO rest.head?) then
      some (g1, c.toLower)
    else none
  | _ => none

/-- Match of \b(\d 1,2)\s*(am|pm)\b at the current position. -/
def time2At (prev : Option Char) (l : List Char) : Option (List Char × Char) :=
  if wordO prev then none
  else
    match l with
    | a :: rest =>
      if isDigitC a then
        match rest with
        | b :: rest2 =>
          if isDigitC b then
            match time2Tail [a, b] rest2 with
            | some r => some r
            | none => time2Tail [a] rest
          else time2Tail [a] rest
        | [] => none
      else none
    | [] => none

/-- Leftmost search for the bare time pattern. -/
def time2Search : Option Char → List Char → Option (List Char × Char)
  | _, [] => none
  | prev, c :: t =>
    match time2At prev (c :: t) with
    | some r => some r
    | none => time2Search (some c) t

/-- Model of parse_time (scrape_schedule.py lines 120-134): extract H:MM with
optional meridiem (PM inferred for hours 1-7 when the marker is absent),
else a bare H am/pm with zero-filled minutes, else the sentinel TBD. -/
def parse_time (s : String) : String :=
  match time1Search s.data with
  | some (g1, mn, mer) =>
    let h := digitsVal g1
    let ap := match mer with
      | some c => if c == 'a' then "AM" else "PM"
      | none => if 1 ≤ h ∧ h ≤ 7 then "PM" else "AM"
    let h12 := if h % 12 == 0 then 12 else h % 12
    toString h12 ++ ":" ++ (⟨mn⟩ : String) ++ " " ++ ap
  | none =>
    match time2Search none s.data with
    | some (g1, c) => (⟨g1⟩ : String) ++ ":00 " ++ (if c == 'a' then "AM" else "PM")
    | none => "TBD"

/- ───────────── normalize_tv (scrape_schedule.py lines 36-42, 137-142) ───── -/

/-- TV_MAP of scrape_schedule.py, in source (dict insertion) order. -/
def TV_MAP : List (String × String) :=
  [("espn+", "ESPN+"), ("espnu", "ESPNU"), ("espn2", "ESPN2"), ("espn", "ESPN"),
   ("sec network", "SEC Network"), ("acc network", "ACC Network"),
   ("big ten network", "Big Ten Network"), ("mlb network", "MLB Network"),
   ("fs1", "FS1"), ("fs2", "FS2"), ("stadium", "Stadium"),
   ("flobaseball", "FloBaseball"), ("youtube", "YouTube"), ("live stream", "Stream")]

/-- First TV_MAP key that is a substring of the lowercased text. -/
def lookupTv : List (String × String) → List Char → Option String
  | [], _ => none
  | (k, label) :: rest, low =>
    if containsSub k.data low then some label else lookupTv rest low

/-- Model of normalize_tv: empty stays empty, known channel substrings map to
canonical labels, anything else passes through stripped. -/
def normalize_tv (s : String) : String :=
  if s = "" then ""
  else
    match lookupTv TV_MAP (strLower s).data with
    | some label => label
    | none => pyStrip s

/- ─────── inline regex helpers of parse_print_page (lines 245-336) ───────── -/

/-- Suffix alternatives of espn\+?2?u? in greedy backtracking order. -/
def tvSuffixes : List (List Char) :=
  [['+', '2', 'u'], ['+', '2'], ['+', 'u'], ['+'], ['2', 'u'], ['2'], ['u'], []]

/-- First espn suffix that matches the text and satisfies the trailing \b. -/
def tvPickSuffix (rest4 : List Char) : List (List Char) → Option Nat
  | [] => none
  | sfx :: more =>
    if ciLeads sfx rest4 then
      (if (isWordCharC (sfx.getLastD 'n')) != wordO ((rest4.drop sfx.length).head?)
       then some sfx.length else tvPickSuffix rest4 more)
    else tvPickSuffix rest4 more

/-- Literal alternatives of the broadcast fallback pattern, in source order. -/
def tvLiteralAlts : List (List Char) :=
  ["sec network".data, "acc network".data, "fs1".data, "fs2".data,
   "big ten network".data, "mlb network".data, "stadium".data, "flobaseball".data]

/-- First literal broadcast alternative matching at this position with its
trailing word boundary. -/
def tvTryLiterals : List (List Char) → List Char → Option Nat
  | [], _ => none
  | pat :: more, l =>
    if ciLeads pat l && !(wordO ((l.drop pat.length).head?)) then some pat.length
    else tvTryLiterals more l

/-- Match of the broadcast fallback pattern at the current position,
returning the match length. -/
def tvAt (prev : Option Char) (l : List Char) : Option Nat :=
  if wordO prev then none
  else
    if ciLeads "espn".data l then
      match tvPickSuffix (l.drop 4) tvSuffixes with
      | some n => some (4 + n)
      | none => tvTryLiterals tvLiteralAlts l
    else tvTryLiterals tvLiteralAlts l

/-- Leftmost search for the broadcast fallback pattern; returns the matched
text in its original case, as m.group(1) does. -/
def tvSearchL : Option Char → List Char → Option (List Char)
  | _, [] => none
  | prev, c :: t =>
    match tvAt prev (c :: t) with
    | some n => some ((c :: t).take n)
    | none => tvSearchL (some c) t

/-- Match of \b([WL])\s+(\d+[-–]\d+) at the current position; the result is
the source f-string "group1 group2". -/
def resultAt (prev : Option Char) (l : List Char) : Option (List Char) :=
  if wordO prev then none
  else
    match l with
    | w :: rest =>
      if w == 'W' || w == 'L' then
        (if (rest.takeWhile pyIsSpace) = [] then none
         else
          let r1 := rest.dropWhile pyIsSpace
          let d1 := r1.takeWhile isDigitC
          if d1 = [] then none
          else
            match r1.drop d1.length with
            | d :: r2 =>
              if d == '-' || d == '–' then
                (if (r2.takeWhile isDigitC) = [] then none
                 else some (w :: ' ' :: (d1 ++ d :: r2.takeWhile isDigitC)))
              else none
            | [] => none)
      else none
    | [] => none

/-- Leftmost search for the win/loss score pattern. -/
def resultSearchL : Option Char → List Char → Option (List Char)
  | _, [] => none
  | prev, c :: t =>
    match resultAt prev (c :: t) with
    | some r => some r
    | none => resultSearchL (some c) t

/- ───────── opponent cleaning (scrape_schedule.py lines 271-278) ─────────── -/

/-- The at-alternative of the opponent leading-marker pattern at\s+@?\s*
(case-insensitive): requires whitespace after "at", then strips an optional
at-sign and further whitespace.  Returns the input unchanged when the
alternative does not match. -/
def atBranch : List Char → List Char
  | x :: y :: rest =>
    if x.toLower == 'a' && y.toLower == 't' then
      match rest with
      | c :: _ =>
        if pyIsSpace c then
          (match rest.dropWhile pyIsSpace with
           | '@' :: t2 => t2.dropWhile pyIsSpace
           | t2 => t2.dropWhile pyIsSpace)
        else x :: y :: rest
      | [] => x :: y :: rest
    else x :: y :: rest
  | l => l

/-- Model of re.sub on the anchored pattern ^(vs\.?\s*|at\s+@?\s*) with the
IGNORECASE flag: the vs-alternative is tried first, then the at-alternative. -/
def stripVsAt (l : List Char) : List Char :=
  match l with
  | v :: s :: rest =>
    if v.toLower == 'v' && s.toLower == 's' then
      (match rest with
       | '.' :: t => t.dropWhile pyIsSpace
       | t => t.dropWhile pyIsSpace)
    else atBranch (v :: s :: rest)
  | l => atBranch l

/-- Match test for \s+[WLT]\s+\d+[-–]\d+.*$ at the current position (the
matched tail runs to the end of the cell text, which contains no newlines
because get_text joins stripped fragments with spaces). -/
def resultTailAt (l : List Char) : Bool :=
  match l with
  | c :: rest =>
    if pyIsSpace c then
      match rest.dropWhile pyIsSpace with
      | w :: r2 =>
        if w == 'W' || w == 'L' || w == 'T' then
          match r2 with
          | c2 :: r3 =>
            if pyIsSpace c2 then
              (let r4 := r3.dropWhile pyIsSpace
               let ds := r4.takeWhile isDigitC
               if ds = [] then false
               else
                 match r4.drop ds.length with
                 | d :: r5 => (d == '-' || d == '–') && !((r5.takeWhile isDigitC) = [])
                 | [] => false)
            else false
          | [] => false
        else false
      | [] => false
    else false
  | [] => false

/-- Model of re.sub on \s+[WLT]\s+\d+[-–]\d+.*$ : everything from the first
match position to the end of the string is removed. -/
def stripResultSuffix : List Char → List Char
  | [] => []
  | c :: t => if resultTailAt (c :: t) then [] else c :: stripResultSuffix t

/-- The two opponent-cleaning substitutions of parse_print_page (lines
271-275), each followed by str.strip() as in the source. -/
def cleanOpponent (s : String) : String :=
  pyStrip ⟨stripResultSuffix (pyStripL (stripVsAt s.data))⟩

/- ───────── home/away searches (scrape_schedule.py lines 280-291) ────────── -/

/-- Match of a whole word (case-insensitive) at the current position. -/
def wordAtPos (w : List Char) (prev : Option Char) (l : List Char) : Bool :=
  !(wordO prev) && ciLeads w l && !(wordO ((l.drop w.length).head?))

/-- Leftmost whole-word search, the model of re.search on \bword\b with
IGNORECASE. -/
def wordSearchAux (w : List Char) : Option Char → List Char → Bool
  | _, [] => false
  | prev, c :: t => wordAtPos w prev (c :: t) || wordSearchAux w (some c) t

/-- Whole-word search on strings. -/
def wordSearchCI (w : String) (s : String) : Bool := wordSearchAux w.data none s.data

/-- Model of re.search(r'\baway\b|^@\s', haystack, re.I). -/
def awaySearch (s : String) : Bool :=
  wordSearchCI "away" s ||
  (match s.data with
   | '@' :: c :: _ => pyIsSpace c
   | _ => false)

/-- Model of re.search(r'\bneutral\b|\btournament\b|\btourney\b|\bclassic\b', ..., re.I). -/
def neutralSearch (s : String) : Bool :=
  wordSearchCI "neutral" s || wordSearchCI "tournament" s ||
  wordSearchCI "tourney" s || wordSearchCI "classic" s

/-- Model of re.search(r'^at\s|^@\s', orig_opp, re.I). -/
def origAway (s : String) : Bool :=
  (match s.data with
   | a :: b :: c :: _ => a.toLower == 'a' && b.toLower == 't' && pyIsSpace c
   | _ => false) ||
  (match s.data with
   | '@' :: c :: _ => pyIsSpace c
   | _ => false)

/-- Model of re.match(r'^\d 1,2:\d 2', t): a time-like start of a cell. -/
def startsTimeL : List Char → Bool
  | a :: ':' :: m1 :: m2 :: _ => isDigitC a && isDigitC m1 && isDigitC m2
  | a :: b :: ':' :: m1 :: m2 :: _ => isDigitC a && isDigitC b && isDigitC m1 && isDigitC m2
  | _ => false

/- ───────────── the per-row record pipeline (lines 206-338) ──────────────── -/

/-- One schedule record, with the three fields main() adds after extraction.
parse_print_page and parse_list_layout leave those three empty. -/
structure Game where
  school : String
  date : String
  time : String
  opponent : String
  home_away : String
  location : String
  tv : String
  result : String
  division : String
  espn_team_id : String
  last_updated : String
deriving DecidableEq

/-- The column-role assignment detected from the header row. -/
structure ColAssign where
  date : Option Nat
  opp : Option Nat
  time : Option Nat
  loc : Option Nat
  result : Option Nat
  tv : Option Nat
deriving DecidableEq

/-- Cell access guarded as in the source: col is not None and col < len(texts). -/
def getCell (texts : List String) : Option Nat → Option String
  | some j => if j < texts.length then some (texts.getD j "") else none
  | none => none

/-- Does any keyword occur as a substring of the (lowercased) header cell? -/
def anyKeySub (h : List Char) (keys : List String) : Bool :=
  keys.any (fun k => containsSub k.data h)

/-- Header scan of parse_print_page (lines 212-224): an if/elif chain per
header cell, later matching cells overwriting earlier assignments. -/
def detectColsAux (i : Nat) (cols : ColAssign) : List String → ColAssign
  | [] => cols
  | h :: rest =>
    detectColsAux (i + 1)
      (let hl := (strLower h).data
       if anyKeySub hl ["date", "day"] then { cols with date := some i }
       else if anyKeySub hl ["opponent", "team", "vs", "game"] then { cols with opp := some i }
       else if anyKeySub hl ["time", "start"] then { cols with time := some i }
       else if anyKeySub hl ["location", "site", "venue", "city", "place"] then { cols with loc := some i }
       else if anyKeySub hl ["result", "score", "w/l", "record"] then { cols with result := some i }
       else if anyKeySub hl ["tv", "broadcast", "network", "coverage"] then { cols with tv := some i }
       else cols) rest

/-- Column detection over the header row (cells are lowercased as at the
extraction site in the source). -/
def detectCols (headers : List String) : ColAssign :=
  detectColsAux 0 ⟨none, none, none, none, none, none⟩ headers

/-- First cell whose parse_date is non-empty (the all-cells date scan). -/
def firstDate (cy : Nat) : List String → String
  | [] => ""
  | t :: ts => if parse_date cy t ≠ "" then parse_date cy t else firstDate cy ts

/-- First cell whose parse_time is not TBD (the all-cells time scan). -/
def firstTime : List String → String
  | [] => "TBD"
  | t :: ts => if parse_time t ≠ "TBD" then parse_time t else firstTime ts

/-- Python max(candidates, key=len): the first candidate of maximal length. -/
def longestCand : List String → String
  | [] => ""
  | c :: cs => cs.foldl (fun best x => if best.length < x.length then x else best) c

/-- Date of one row (lines 246-256): the assigned column first, else the
all-cells scan. -/
def rowDate (cy : Nat) (cols : ColAssign) (texts : List String) : String :=
  let dcol := match getCell texts cols.date with
    | some c => parse_date cy c
    | none => ""
  if dcol = "" then firstDate cy texts else dcol

/-- Raw opponent cell of one row (lines 259-269): the assigned column first,
else the longest cell that is neither a date nor a time. -/
def rowOppRaw (cy : Nat) (cols : ColAssign) (texts : List String) : String :=
  let opp0 := match getCell texts cols.opp with
    | some c => c
    | none => ""
  if opp0 = "" then
    longestCand (texts.filter (fun x => parse_date cy x == "" && !(startsTimeL x.data)))
  else opp0

/-- Location cell of one row (line 281). -/
def rowLoc (cols : ColAssign) (texts : List String) : String :=
  match getCell texts cols.loc with | some c => c | none => ""

/-- Home/away classification of one row (lines 282-291). -/
def rowHomeAway (cols : ColAssign) (texts : List String) : String :=
  let full := String.intercalate " " texts
  let hay : String := rowLoc cols texts ++ (⟨full.data.take 60⟩ : String)
  let ha1 := if awaySearch hay then "Away" else if neutralSearch hay then "Neutral" else "Home"
  let orig_opp := match getCell texts cols.opp with | some c => c | none => full
  if origAway orig_opp then "Away" else ha1

/-- Time of one row (lines 294-303): assigned column first, else the
all-cells scan. -/
def rowTime (cols : ColAssign) (texts : List String) : String :=
  let t0 := match getCell texts cols.time with
    | some c => if c ≠ "" then parse_time c else "TBD"
    | none => "TBD"
  if t0 = "TBD" then firstTime texts else t0

/-- Broadcast channel of one row (lines 306-316): assigned column first,
else the fallback pattern over the joined row text. -/
def rowTv (cols : ColAssign) (texts : List String) : String :=
  let full := String.intercalate " " texts
  let tv0 := match getCell texts cols.tv with
    | some c => normalize_tv c
    | none => ""
  if tv0 = "" then
    (match tvSearchL none full.data with
     | some chunk => normalize_tv ⟨chunk⟩
     | none => "")
  else tv0

/-- Result of one row (lines 319-325): assigned column first, else the
win/loss score pattern over the joined row text. -/
def rowResult (cols : ColAssign) (texts : List String) : String :=
  let full := String.intercalate " " texts
  let r0 := match getCell texts cols.result with | some c => c | none => ""
  if r0 = "" then
    (match resultSearchL none full.data with
     | some r => (⟨r⟩ : String)
     | none => "")
  else r0

/-- The body of the data-row loop of parse_print_page (lines 232-336): given
the detected column assignment and the row cell texts, either discard the
row or produce one Game. -/
def processRow (cy : Nat) (school : String) (cols : ColAssign) (texts : List String) : Option Game :=
  if texts.length < 2 then none
  else if texts.all (fun x => x == "") then none
  else if rowDate cy cols texts = "" then none
  else
    let opponent := cleanOpponent (rowOppRaw cy cols texts)
    if opponent = "" ∨ opponent.length < 2 then none
    else
      some { school := school, date := rowDate cy cols texts, time := rowTime cols texts,
             opponent := opponent, home_away := rowHomeAway cols texts,
             location := rowLoc cols texts, tv := rowTv cols texts,
             result := rowResult cols texts, division := "", espn_team_id := "",
             last_updated := "" }

/-- The table path of parse_print_page: row 0 is the header, every later row
goes through the row loop. -/
def parsePrintRows (cy : Nat) (school : String) (rows : List (List String)) : List Game :=
  match rows with
  | [] => []
  | hdr :: rest => rest.filterMap (processRow cy school (detectCols hdr))

/- ───────── parse_list_layout (scrape_schedule.py lines 341-371) ─────────── -/

/-- Character class [A-Za-z &.\x27-] of the list-layout opponent pattern. -/
def isOppClassC (c : Char) : Bool :=
  isUpperC c || isLowerC c || c == ' ' || c == '&' || c == '.' || c == '\'' || c == '-'

/-- The leading alternation (?:vs\.?|at) of the list-layout opponent pattern
(case-sensitive, unlike the table-path cleaning). -/
def vsAtHead : List Char → Option (List Char)
  | 'v' :: 's' :: rest => some (match rest with | '.' :: t => t | t => t)
  | 'a' :: 't' :: rest => some rest
  | _ => none

/-- Match of (?:vs\.?|at)\s+([A-Z][A-Za-z &.\x27-]+) at the current position,
returning the captured group. -/
def listOppAt (l : List Char) : Option (List Char) :=
  match vsAtHead l with
  | some rest =>
    if (rest.takeWhile pyIsSpace) = [] then none
    else
      match rest.dropWhile pyIsSpace with
      | c :: r2 =>
        if isUpperC c then
          (let run := r2.takeWhile isOppClassC
           if run = [] then none else some (c :: run))
        else none
      | [] => none
  | none => none

/-- Leftmost search for the list-layout opponent pattern. -/
def listOppSearch : List Char → Option (List Char)
  | [] => none
  | c :: t =>
    match listOppAt (c :: t) with
    | some r => some r
    | none => listOppSearch t

/-- The per-fragment body of parse_list_layout: date from the full fragment
text, opponent from the vs/at pattern, time from parse_time over the text,
home/away from a word-search for "at" in the first forty characters. -/
def processListItem (cy : Nat) (school : String) (text : String) : Option Game :=
  let game_date := parse_date cy text
  if game_date = "" then none
  else
    match listOppSearch text.data with
    | some oppChars =>
      let opponent := pyStrip ⟨oppChars⟩
      if opponent = "" then none
      else
        some { school := school, date := game_date, time := parse_time text,
               opponent := opponent,
               home_away := if wordSearchCI "at" ⟨text.data.take 40⟩ then "Away" else "Home",
               location := "", tv := "", result := "", division := "",
               espn_team_id := "", last_updated := "" }
    | none => none

/-- parse_list_layout over the selected fragment texts. -/
def parse_list_layout (cy : Nat) (school : String) (itemTexts : List String) : List Game :=
  itemTexts.filterMap (processListItem cy school)

/- ───────── reconciliation step of main() (scrape_schedule.py 440-461) ───── -/

/-- The metadata main() adds to every extracted game (lines 428-431). -/
def addMeta (division espn_id upd : String) (g : Game) : Game :=
  { g with division := division, espn_team_id := espn_id, last_updated := upd }

/-- The natural key of the current-state schedule table. -/
def gameKey (g : Game) : String × String × String := (g.school, g.date, g.opponent)

/-- Rows of the persisted table that carry a given key. -/
def countKey (t : List Game) (k : String × String × String) : Nat :=
  (t.filter (fun g => gameKey g == k)).length

/-- The sheet rewrite of main() (lines 449-461): keep every persisted row
whose school is not among the scraped schools, then append all newly
extracted rows.  The header row and the fixed-schema serialization that
get_all_records inverts are elided; a table is a list of Game rows. -/
def writeSchedule (existing : List Game) (scraped_schools : List String) (all_games : List Game) : List Game :=
  existing.filter (fun r => !(scraped_schools.contains r.school)) ++ all_games

/-- The persistence tail of main() (lines 440-461): with no extracted games
the function returns before touching the sheet. -/
def runPersist (existing : List Game) (scraped_schools : List String) (all_games : List Game) : List Game :=
  if all_games.isEmpty then existing else writeSchedule existing scraped_schools all_games

/- ───────────────────── scraper.py : data model ──────────────────────────── -/

/-- A destination of one raw stat column: a single output column or a pair
produced by split_combined (e.g. GP-GS to G and GS). -/
inductive Dest where
  | single : String → Dest
  | pair : String → String → Dest
deriving DecidableEq

/-- A column map of scraper.py: raw header name to destination, in dict
insertion order. -/
abbrev ColMap := List (String × Dest)

/-- A stat mapping (Python dict of str to str, insertion ordered). -/
abbrev SDict := List (String × String)

/-- Python dict lookup: d.get(k) as an Option. -/
def dget : SDict → String → Option String
  | [], _ => none
  | (k0, v0) :: rest, k => if k = k0 then some v0 else dget rest k

/-- Python dict lookup with default: d.get(k, dflt). -/
def dgetD (d : SDict) (k dflt : String) : String := (dget d k).getD dflt

/-- Python dict assignment d[k] = v: overwrite in place, else append. -/
def dset : SDict → String → String → SDict
  | [], k, v => [(k, v)]
  | (k0, v0) :: rest, k, v =>
    if k0 = k then (k0, v) :: rest else (k0, v0) :: dset rest k v

/-- BATTING_MAP of scraper.py (lines 15-23). -/
def BATTING_MAP : ColMap :=
  [("GP-GS", .pair "G" "GS"),
   ("AB", .single "AB"), ("R", .single "R"), ("H", .single "H"),
   ("2B", .single "2B"), ("3B", .single "3B"), ("HR", .single "HR"),
   ("RBI", .single "RBI"), ("BB", .single "BB"), ("SO", .single "SO"),
   ("HBP", .single "HBP"), ("SH", .single "SAC"), ("SF", .single "SF"),
   ("SB-ATT", .pair "SB" "CS"),
   ("AVG", .single "AVG"), ("OB%", .single "OBP"), ("SLG%", .single "SLG"),
   ("OPS", .single "OPS")]

/-- PITCHING_MAP of scraper.py (lines 25-32). -/
def PITCHING_MAP : ColMap :=
  [("APP-GS", .pair "G" "GS"), ("W-L", .pair "W" "L"),
   ("SV", .single "SV"), ("IP", .single "IP"), ("H", .single "H"),
   ("R", .single "R"), ("ER", .single "ER"), ("BB", .single "BB"),
   ("SO", .single "SO"), ("HBP", .single "HBP"),
   ("ERA", .single "ERA"), ("WHIP", .single "WHIP")]

/-- DEFENSE_MAP of scraper.py (lines 34-37). -/
def DEFENSE_MAP : ColMap :=
  [("C", .single "TC"), ("PO", .single "PO"), ("A", .single "A"),
   ("E", .single "E"), ("FLD%", .single "FLD%"), ("DP", .single "DP")]

/-- BATTING_COLS of scraper.py (lines 40-42). -/
def BATTING_COLS : List String :=
  ["G", "GS", "AB", "R", "H", "2B", "3B", "HR", "RBI", "BB", "SO",
   "HBP", "SAC", "SF", "SB", "CS", "AVG", "OBP", "SLG", "OPS",
   "ISO", "BABIP", "BB_pct", "K_pct"]

/-- PITCHING_COLS of scraper.py (lines 43-45). -/
def PITCHING_COLS : List String :=
  ["G", "GS", "W", "L", "SV", "IP", "H", "R", "ER", "BB", "SO",
   "HBP", "ERA", "WHIP", "K_per_9", "BB_per_9", "K_BB", "xFIP",
   "BB_pct", "K_pct"]

/-- DEFENSE_COLS of scraper.py (line 46). -/
def DEFENSE_COLS : List String := ["TC", "PO", "A", "E", "FLD%", "DP"]

/-- All destination columns of a column map, in order. -/
def destCols : ColMap → List String
  | [] => []
  | (_, Dest.single d) :: rest => d :: destCols rest
  | (_, Dest.pair a b) :: rest => a :: b :: destCols rest

/- ─────────────── scraper.py : stat parsing (lines 60-144) ───────────────── -/

/-- Split a list at the first occurrence of a separator character. -/
def splitFirst (sep : Char) : List Char → Option (List Char × List Char)
  | [] => none
  | c :: t =>
    if c == sep then some ([], t)
    else
      match splitFirst sep t with
      | some (a, b) => some (c :: a, b)
      | none => none

/-- split_combined of scraper.py (lines 60-64): split on the first dash and
strip both parts, or return a pair of empty strings. -/
def split_combined (v : String) : String × String :=
  match splitFirst '-' v.data with
  | some (a, b) => (pyStrip ⟨a⟩, pyStrip ⟨b⟩)
  | none => ("", "")

/-- align_headers of scraper.py (lines 66-69). -/
def align_headers (hdrs : List String) (cells : List String) : List String :=
  if hdrs.contains "Player" ∧ hdrs.length = cells.length + 1 then
    hdrs.filter (fun h => h ≠ "Player")
  else hdrs

/-- Model of Python float() on the plain decimal literals this scraper
handles: optional sign, digits with an optional fractional part (exponents
and the inf/nan spellings are outside the modelled input space); float of
an empty or non-numeric string fails. -/
def pyFloat? (s : String) : Option Rat :=
  let l := pyStripL s.data
  let sgn : Rat × List Char :=
    match l with
    | '+' :: t => (1, t)
    | '-' :: t => (-1, t)
    | t => (1, t)
  let ip := sgn.2.takeWhile isDigitC
  let l2 := sgn.2.dropWhile isDigitC
  let fp : List Char × List Char :=
    match l2 with
    | '.' :: t => (t.takeWhile isDigitC, t.dropWhile isDigitC)
    | t => ([], t)
  if fp.2 = [] ∧ (ip ≠ [] ∨ fp.1 ≠ []) then
    some (sgn.1 * ((digitsVal ip : Rat) + (digitsVal fp.1 : Rat) / ((10 : Rat) ^ fp.1.length)))
  else none

/-- Round half to even on rationals (the rounding used by Python format). -/
def roundHalfEven (q : Rat) : Int :=
  let f : Int := Rat.floor q
  let r : Rat := q - (f : Rat)
  if r < 1 / 2 then f
  else if 1 / 2 < r then f + 1
  else if f % 2 = 0 then f else f + 1

/-- Left-pad with zeros to a given width. -/
def padZeros (w : Nat) (s : String) : String :=
  if s.length < w then (⟨List.replicate (w - s.length) '0'⟩ : String) ++ s else s

/-- Fixed-point decimal rendering, modelling the Python format f-strings
(.1f, .2f, .3f) over Rat. -/
def formatFixed (prec : Nat) (x : Rat) : String :=
  let n : Int := roundHalfEven (x * ((10 : Rat) ^ prec))
  let sgn : String := if n < 0 ∨ (n = 0 ∧ x < 0) then "-" else ""
  let a : Nat := n.natAbs
  sgn ++ toString (a / 10 ^ prec) ++
    (if prec = 0 then "" else "." ++ padZeros prec (toString (a % 10 ^ prec)))

/-- float(out.get(k, 0)): a missing key defaults to integer zero; a present
value goes through float() and may fail. -/
def pFloat (out : SDict) (k : String) : Option Rat :=
  match dget out k with
  | none => some 0
  | some s => pyFloat? s

/-- The base loop of map_row (scraper.py lines 72-80): copy every mapped raw
value (missing raw values default to the empty string), splitting combined
columns into their two destinations. -/
def mapRowBase (raw : SDict) : ColMap → SDict → SDict
  | [], out => out
  | (src, Dest.single d) :: rest, out => mapRowBase raw rest (dset out d (dgetD raw src ""))
  | (src, Dest.pair a b) :: rest, out =>
    mapRowBase raw rest
      (dset (dset out a (split_combined (dgetD raw src "")).1) b (split_combined (dgetD raw src "")).2)

/-- Pitching computed block of map_row (lines 83-100): a failing float()
parse aborts the whole try-block with no keys written. -/
def pitchBlock (out : SDict) : SDict :=
  match pFloat out "IP", pFloat out "BB", pFloat out "SO", pFloat out "HBP", pFloat out "H" with
  | some ip, some bb, some so, some hbp, some hp =>
    if 0 < ip then
      let base :=
        dset (dset (dset (dset out
          "K_per_9" (formatFixed 2 (so / ip * 9)))
          "BB_per_9" (formatFixed 2 (bb / ip * 9)))
          "K_BB" (if 0 < bb then formatFixed 2 (so / bb) else "—"))
          "xFIP" (formatFixed 2 ((13 * ip / 9 + 3 * (bb + hbp) - 2 * so) / ip + 31 / 10))
      let bf := ip * 3 + hp + bb + hbp
      if 0 < bf then
        dset (dset base "BB_pct" (formatFixed 1 (bb / bf * 100)))
          "K_pct" (formatFixed 1 (so / bf * 100))
      else base
    else out
  | _, _, _, _, _ => out

/-- Batting computed block of map_row (lines 103-125). -/
def batBlock (out : SDict) : SDict :=
  match pFloat out "AB", pFloat out "BB", pFloat out "SO", pFloat out "HBP",
        pFloat out "SAC", pFloat out "SF", pFloat out "H", pFloat out "HR",
        pFloat out "SLG", pFloat out "AVG" with
  | some ab, some bb, some so, some hbp, some sac, some sf, some h, some hr, some slg, some avg =>
    if 0 < ab then
      let pa := ab + bb + hbp + sf + sac
      let out1 :=
        if 0 < pa then
          dset (dset out "BB_pct" (formatFixed 1 (bb / pa * 100)))
            "K_pct" (formatFixed 1 (so / pa * 100))
        else out
      let out2 := if 0 < slg then dset out1 "ISO" (formatFixed 3 (slg - avg)) else out1
      let denom := ab - so - hr + sf
      if 0 < denom ∧ hr ≤ h then dset out2 "BABIP" (formatFixed 3 ((h - hr) / denom)) else out2
    else out
  | _, _, _, _, _, _, _, _, _, _ => out

/-- OPS fallback of map_row (lines 128-132): runs when the OPS entry is
missing or empty; a failing float() leaves the dict unchanged. -/
def opsFix (out : SDict) : SDict :=
  if dget out "OPS" = none ∨ dget out "OPS" = some "" then
    match pyFloat? (dgetD out "OBP" "0"), pyFloat? (dgetD out "SLG" "0") with
    | some o, some sl => dset out "OPS" (formatFixed 3 (o + sl))
    | _, _ => out
  else out

/-- map_row of scraper.py (lines 71-134). -/
def map_row (raw : SDict) (col_map : ColMap) : SDict :=
  opsFix (batBlock (pitchBlock (mapRowBase raw col_map [])))

/-- zero_stats of scraper.py (lines 136-144): every destination column of
the map set to the string "0". -/
def zero_stats : ColMap → SDict → SDict
  | [], out => out
  | (_, Dest.single d) :: rest, out => zero_stats rest (dset out d "0")
  | (_, Dest.pair a b) :: rest, out => zero_stats rest (dset (dset out a "0") b "0")

/- ─────────────── scraper.py : scraping (lines 147-183) ──────────────────── -/

/-- The three stat categories handled by scrape. -/
inductive StatType where
  | batting
  | pitching
  | defense
deriving DecidableEq

/-- The stat_type to column-map dict used at the scrape call sites. -/
def colMapOf : StatType → ColMap
  | StatType.batting => BATTING_MAP
  | StatType.pitching => PITCHING_MAP
  | StatType.defense => DEFENSE_MAP

/-- A scraped HTML table: the raw cell texts of its rows (row 0 = header). -/
abbrev PTable := List (List String)

/-- The per-table acceptance test of find_table (lines 147-156). -/
def tableMatches (stat_type : StatType) (rows : PTable) : Bool :=
  2 ≤ rows.length &&
    (let hdrs := rows.headD []
     match stat_type with
     | StatType.batting => hdrs.contains "AVG" && hdrs.contains "AB"
     | StatType.pitching => hdrs.contains "ERA" && hdrs.contains "IP"
     | StatType.defense => hdrs.contains "FLD%" && hdrs.contains "PO")

/-- find_table of scraper.py: the first table whose header carries the
category-identifying columns, together with that header. -/
def find_table : List PTable → StatType → Option (PTable × List String)
  | [], _ => none
  | t :: ts, stat_type =>
    if tableMatches stat_type t then some (t, t.headD [])
    else find_table ts stat_type

/-- The raw dict built from one matched row (line 179): zip the aligned
headers with the cells. -/
def buildRaw (aligned : List String) (cells : List String) : SDict :=
  (aligned.zip cells).foldl (fun d p => dset d p.1 p.2) []

/-- The data-row loop of scrape (lines 173-183): find the row whose first
cell is the jersey number, else fall back to zeros. -/
def scrapeRows (jersey : String) (hdrs : List String) (cm : ColMap) : List (List String) → SDict
  | [] => zero_stats cm []
  | cells :: rest =>
    if cells = [] then scrapeRows jersey hdrs cm rest
    else if pyStrip (cells.headD "") = jersey then map_row (buildRaw (align_headers hdrs cells) cells) cm
    else scrapeRows jersey hdrs cm rest

/-- scrape of scraper.py (lines 158-183), over the already-fetched page
tables: a blank jersey, a missing stat table, and an unmatched jersey all
produce the zero_stats mapping. -/
def scrape (playerJersey : String) (tables : List PTable) (stat_type : StatType) : SDict :=
  let jersey := pyStrip playerJersey
  if jersey = "" then zero_stats (colMapOf stat_type) []
  else
    match find_table tables stat_type with
    | none => zero_stats (colMapOf stat_type) []
    | some (tbl, hdrs) => scrapeRows jersey hdrs (colMapOf stat_type) tbl.tail

/- ─────────────── scraper.py : sheet writing (lines 186-209) ─────────────── -/

/-- The row built by write_stats and write_history (lines 191-192, 206-207):
five identity cells then one value per target column, absent mapping keys
rendered as the empty string. -/
def statRow (now pid name school division : String) (mapped : SDict) (target_cols : List String) : List String :=
  [now, pid, name, school, division] ++ target_cols.map (fun c => dgetD mapped c "")

/-- The table update of write_stats (lines 193-201): overwrite the first row
whose PlayerID cell matches, else append. -/
def write_stats : List (List String) → String → List String → List (List String)
  | [], _, row => [row]
  | r :: rest, pid, row =>
    if r.getD 1 "" == pid then row :: rest else r :: write_stats rest pid row

/-- write_history of scraper.py (lines 203-209): unconditionally append one
snapshot row. -/
def write_history (ws : List (List String)) (row : List String) : List (List String) :=
  ws ++ [row]

/- ─────────────────────────── helper lemmas ─────────────────────────────── -/

theorem filter_bool_false {l : List Game} {p : Game → Bool}
    (h : ∀ a ∈ l, p a = false) : l.filter p = [] := by
  apply List.filter_eq_nil_iff.mpr
  intro a ha
  simp [h a ha]

theorem keyFilter_le_one (games : List Game) (k : String × String × String)
    (hnd : (games.map gameKey).Nodup) :
    (games.filter (fun g => gameKey g == k)).length ≤ 1 := by
  induction games with
  | nil => simp
  | cons g gs ih =>
    simp only [List.map_cons, List.nodup_cons] at hnd
    by_cases hk : (gameKey g == k) = true
    · have hgs : gs.filter (fun x => gameKey x == k) = [] := by
        apply filter_bool_false
        intro x hx
        have hne : gameKey x ≠ gameKey g := by
          intro he
          exact hnd.1 (he ▸ List.mem_map_of_mem gameKey hx)
        simp only [beq_iff_eq] at hk
        simp only [beq_eq_false_iff_ne, ne_eq]
        intro he
        exact hne (by rw [he, hk])
      simp [List.filter_cons, hk, hgs]
    · simp only [List.filter_cons, hk, if_false, Bool.false_eq_true]
      exact ih hnd.2

/-- C7: with zero extracted records across all sources the persistence step
is skipped entirely and the persisted table is left exactly as before: the
source returns before clearing or rewriting the sheet. -/
theorem C7_empty_run_preserves (existing : List Game) (scope : List String) :
    runPersist existing scope [] = existing := by
  simp [runPersist]

/-- C2 counterexample: the history writer is not idempotent — appending the
same snapshot row twice does not equal appending it once, refuting the claim
that both persistence modes are idempotent under re-running. -/
theorem C2_counterexample :
    write_history (write_history []
        ["2026-04-01 09:00", "P1", "Jones", "State", "D1", "0"])
      ["2026-04-01 09:00", "P1", "Jones", "State", "D1", "0"] ≠
    write_history [] ["2026-04-01 09:00", "P1", "Jones", "State", "D1", "0"] := by
  decide

/-- C2 (amended): the current-state schedule rewrite is idempotent on
identical input (all records tagged with in-scope sources), while the
history writer appends one snapshot row per call on every run, growing the
table each time instead of being idempotent. -/
theorem C2_idempotence :
    (∀ (existing : List Game) (scope : List String) (games : List Game),
      (∀ g ∈ games, scope.contains g.school = true) →
      writeSchedule (writeSchedule existing scope games) scope games =
        writeSchedule existing scope games)
    ∧ (∀ (ws : List (List String)) (row : List String),
      (write_history ws row).length = ws.length + 1) := by
  constructor
  · intro existing scope games hg
    unfold writeSchedule
    rw [List.filter_append, List.filter_filter]
    have h1 : games.filter (fun r => !(scope.contains r.school)) = [] := by
      apply filter_bool_false
      intro a ha
      simp only [hg a ha, Bool.not_true]
    simp only [Bool.and_self, h1, List.append_nil]
  · intro ws row
    simp [write_history]

/-- C2 witness: the schedule-writer idempotence instantiated at one
persisted out-of-scope row and one in-scope record. -/
theorem C2_idempotence_witness :
    writeSchedule (writeSchedule
        [{ school := "B", date := "2026-03-01", time := "TBD", opponent := "Y",
           home_away := "Home", location := "", tv := "", result := "",
           division := "", espn_team_id := "", last_updated := "" }] ["A"]
        [{ school := "A", date := "2026-03-14", time := "TBD", opponent := "X",
           home_away := "Home", location := "", tv := "", result := "",
           division := "", espn_team_id := "", last_updated := "" }]) ["A"]
      [{ school := "A", date := "2026-03-14", time := "TBD", opponent := "X",
         home_away := "Home", location := "", tv := "", result := "",
         division := "", espn_team_id := "", last_updated := "" }] =
    writeSchedule
      [{ school := "B", date := "2026-03-01", time := "TBD", opponent := "Y",
         home_away := "Home", location := "", tv := "", result := "",
         division := "", espn_team_id := "", last_updated := "" }] ["A"]
      [{ school := "A", date := "2026-03-14", time := "TBD", opponent := "X",
         home_away := "Home", location := "", tv := "", result := "",
         division := "", espn_team_id := "", last_updated := "" }] := by
  exact C2_idempotence.1 _ _ _ (by decide)

/-- C1 counterexample: a doubleheader (two table rows with the same date and
opponent) extracts to two records with the same natural key, and the writer
appends both, so the post-run table holds two rows for one
(source, date, opponent) key — refuting the at-most-one-row-per-key part of
the claim. -/
theorem C1_counterexample :
    ¬ (countKey
        (writeSchedule [] ["A"]
          (parsePrintRows 2026 "A"
            [["Date", "Opponent", "Time"],
             ["3/14/2026", "at Clemson", "1:00 PM"],
             ["3/14/2026", "at Clemson", "4:00 PM"]]))
        ("A", "2026-03-14", "Clemson") ≤ 1) := by
  decide

/-- C1 (amended): for every persisted table and every run scoped to a set of
sources, the post-run table keeps all out-of-scope rows unchanged (the
writer never deletes or blanks them), its in-scope rows are exactly the new
run records, and — provided the run records have pairwise distinct natural
keys — it holds at most one in-scope row per (source, date, opponent) key. -/
theorem C1_reconciliation (existing : List Game) (scope : List String) (games : List Game)
    (hg : ∀ g ∈ games, scope.contains g.school = true) :
    (writeSchedule existing scope games).filter (fun r => !(scope.contains r.school)) =
      existing.filter (fun r => !(scope.contains r.school))
    ∧ (writeSchedule existing scope games).filter (fun r => scope.contains r.school) = games
    ∧ ((games.map gameKey).Nodup → ∀ k,
        (((writeSchedule existing scope games).filter (fun r => scope.contains r.school)).filter
          (fun r => gameKey r == k)).length ≤ 1) := by
  have h2 : (writeSchedule existing scope games).filter (fun r => scope.contains r.school) = games := by
    unfold writeSchedule
    rw [List.filter_append, List.filter_filter]
    have hk : existing.filter (fun a => scope.contains a.school && !(scope.contains a.school)) = [] := by
      apply filter_bool_false
      intro a _
      cases h : scope.contains a.school <;> simp [h]
    have hgames : games.filter (fun r => scope.contains r.school) = games := by
      apply List.filter_eq_self.mpr
      exact fun a ha => hg a ha
    rw [hk, hgames, List.nil_append]
  refine ⟨?_, h2, ?_⟩
  · unfold writeSchedule
    rw [List.filter_append, List.filter_filter]
    have h1 : games.filter (fun r => !(scope.contains r.school)) = [] := by
      apply filter_bool_false
      intro a ha
      simp only [hg a ha, Bool.not_true]
    simp only [Bool.and_self, h1, List.append_nil]
  · intro hnd k
    rw [h2]
    exact keyFilter_le_one games k hnd

/-- C1 witness: the amended reconciliation statement instantiated at a table
holding rows for sources A and B and a run scoped to A. -/
theorem C1_reconciliation_witness :
    (writeSchedule
        [{ school := "B", date := "2026-03-01", time := "TBD", opponent := "Y",
           home_away := "Home", location := "", tv := "", result := "",
           division := "", espn_team_id := "", last_updated := "" },
         { school := "A", date := "2026-02-20", time := "TBD", opponent := "Old",
           home_away := "Home", location := "", tv := "", result := "",
           division := "", espn_team_id := "", last_updated := "" }] ["A"]
        [{ school := "A", date := "2026-03-14", time := "TBD", opponent := "X",
           home_away := "Home", location := "", tv := "", result := "",
           division := "", espn_team_id := "", last_updated := "" }]).filter
      (fun r => (["A"] : List String).contains r.school) =
    [{ school := "A", date := "2026-03-14", time := "TBD", opponent := "X",
       home_away := "Home", location := "", tv := "", result := "",
       division := "", espn_team_id := "", last_updated := "" }] := by
  exact (C1_reconciliation _ _ _ (by decide)).2.1

/-- C10: date normalization performs no calendar-validity check on the
matched digits: "13/45/26" normalizes to "2026-13-45", whose month field 13
exceeds 12 and whose day field 45 exceeds 31, and a table row carrying that
cell still survives extraction as a record with this non-calendar date. -/
theorem C10_no_calendar_check (cy : Nat) :
    parse_date cy "13/45/26" = "2026-13-45"
    ∧ processRow cy "S" ⟨none, none, none, none, none, none⟩ ["13/45/26", "Clemson"] =
        some { school := "S", date := "2026-13-45", time := "TBD", opponent := "Clemson",
               home_away := "Home", location := "", tv := "", result := "",
               division := "", espn_team_id := "", last_updated := "" }
    ∧ 12 < 13 ∧ 31 < 45 :=
  ⟨rfl, rfl, by omega, by omega⟩

theorem pyIsSpace_of_digit {c : Char} (h : isDigitC c = true) : pyIsSpace c = false := by
  simp only [isDigitC, Bool.or_eq_true, beq_iff_eq] at h
  rcases h with ((((((((h | h) | h) | h) | h) | h) | h) | h) | h) | h <;> subst h <;> decide

theorem strip_iso_shape (a b c d e f g h : Char)
    (ha : isDigitC a = true) (hh : isDigitC h = true) :
    pyStripL [a, b, c, d, '-', e, f, '-', g, h] = [a, b, c, d, '-', e, f, '-', g, h] := by
  unfold pyStripL
  rw [List.dropWhile_cons]
  simp only [pyIsSpace_of_digit ha, if_false]
  simp [dropTrailingSp, pyIsSpace_of_digit hh]

/-- C4: date normalization tries its three formats in fixed priority order —
the ISO search decides the result whenever it matches; only when it misses
does the slash format apply, with two-digit years mapped to 2000+YY; only
when both miss does the month-name format apply, with a missing year
replaced by the current calendar year.  Normalizing any already-canonical
YYYY-MM-DD string returns it unchanged, and "3/14/26", "3/14/2026" and
"March 14, 2026" all normalize to "2026-03-14". -/
theorem C4_date_normalization :
    (∀ (cy : Nat) (a b c d e f g h : Char),
      isDigitC a = true → isDigitC b = true → isDigitC c = true → isDigitC d = true →
      isDigitC e = true → isDigitC f = true → isDigitC g = true → isDigitC h = true →
      parse_date cy ⟨[a, b, c, d, '-', e, f, '-', g, h]⟩ = ⟨[a, b, c, d, '-', e, f, '-', g, h]⟩)
    ∧ (∀ cy : Nat, parse_date cy "3/14/26" = "2026-03-14")
    ∧ (∀ cy : Nat, parse_date cy "3/14/2026" = "2026-03-14")
    ∧ (∀ cy : Nat, parse_date cy "March 14, 2026" = "2026-03-14")
    ∧ (∀ (cy : Nat) (t r : List Char),
        isoSearch (pyStripL t) = some r → parseDateL cy t = r)
    ∧ (∀ (cy : Nat) (t g1 g2 g3 : List Char),
        isoSearch (pyStripL t) = none → slashSearch none (pyStripL t) = some (g1, g2, g3) →
        parseDateL cy t =
          (toString (if digitsVal g3 < 100 then digitsVal g3 + 2000 else digitsVal g3)).data ++
            ('-' :: (pad2 (digitsVal g1)).data) ++ ('-' :: (pad2 (digitsVal g2)).data))
    ∧ (∀ (cy : Nat) (t : List Char) (mo day : Nat),
        isoSearch (pyStripL t) = none → slashSearch none (pyStripL t) = none →
        monthSearch none (pyStripL t) = some (mo, day, none) →
        parseDateL cy t = (toString cy).data ++ ('-' :: (pad2 mo).data) ++ ('-' :: (pad2 day).data)) := by
  refine ⟨?_, fun _ => rfl, fun _ => rfl, ?_, ?_, ?_, ?_⟩
  · intro cy a b c d e f g h ha hb hc hd he hf hg hh
    have hiso : isoAt [a, b, c, d, '-', e, f, '-', g, h] = some [a, b, c, d, '-', e, f, '-', g, h] := by
      simp [isoAt, ha, hb, hc, hd, he, hf, hg, hh]
    unfold parse_date
    simp only [parseDateL, strip_iso_shape a b c d e f g h ha hh, isoSearch, hiso]
  · intro cy
    unfold parse_date
    have h1 : isoSearch (pyStripL "March 14, 2026".data) = none := rfl
    have h2 : slashSearch none (pyStripL "March 14, 2026".data) = none := rfl
    have h3 : monthSearch none (pyStripL "March 14, 2026".data) = some (3, 14, some 2026) := rfl
    simp only [parseDateL, h1, h2, h3]
    rfl
  · intro cy t r h
    simp only [parseDateL, h]
  · intro cy t g1 g2 g3 h1 h2
    simp only [parseDateL, h1, h2]
  · intro cy t mo day h1 h2 h3
    simp only [parseDateL, h1, h2, h3]

/-- C4 witness: the canonical string "2026-03-14" is returned unchanged (via
the idempotence conjunct), and the priority conjuncts instantiated at
"2026-03-14 3/14/26" (both patterns present, ISO wins) and at "May 3"
(current-year default). -/
theorem C4_date_normalization_witness :
    parse_date 1999 ⟨['2', '0', '2', '6', '-', '0', '3', '-', '1', '4']⟩ =
      ⟨['2', '0', '2', '6', '-', '0', '3', '-', '1', '4']⟩
    ∧ parseDateL 1999 "2026-03-14 3/14/26".data = "2026-03-14".data
    ∧ parseDateL 1999 "May 3".data =
        (toString 1999).data ++ ('-' :: (pad2 5).data) ++ ('-' :: (pad2 3).data) :=
  ⟨C4_date_normalization.1 1999 '2' '0' '2' '6' '0' '3' '1' '4'
      (by decide) (by decide) (by decide) (by decide) (by decide) (by decide) (by decide) (by decide),
   C4_date_normalization.2.2.2.2.1 1999 "2026-03-14 3/14/26".data "2026-03-14".data (by decide),
   C4_date_normalization.2.2.2.2.2.2 1999 "May 3".data 5 3 (by decide) (by decide) (by decide)⟩

theorem processRow_some_fields {cy : Nat} {school : String} {cols : ColAssign}
    {texts : List String} {g : Game} (h : processRow cy school cols texts = some g) :
    g.date ≠ "" ∧ g.opponent ≠ "" ∧ 2 ≤ g.opponent.length := by
  simp only [processRow] at h
  split at h
  · cases h
  · split at h
    · cases h
    · split at h
      · cases h
      · split at h
        · cases h
        · rename_i hdate hopp
          injection h with h
          subst h
          push_neg at hopp
          refine ⟨hdate, hopp.1, ?_⟩
          show 2 ≤ (cleanOpponent (rowOppRaw cy cols texts)).length
          omega

theorem getCell_mem {texts : List String} {i : Option Nat} {c : String}
    (h : getCell texts i = some c) : c ∈ texts := by
  cases i with
  | none => cases h
  | some j =>
    simp only [getCell] at h
    split at h
    · injection h with h
      subst h
      rw [List.getD_eq_getElem _ _ (by assumption)]
      exact List.getElem_mem _
    · cases h

theorem firstDate_empty {cy : Nat} {ts : List String} (h : ∀ t ∈ ts, parse_date cy t = "") :
    firstDate cy ts = "" := by
  induction ts with
  | nil => rfl
  | cons t ts ih =>
    have ht := h t (by simp)
    simp only [firstDate, ht, ne_eq, not_true_eq_false, if_false]
    exact ih fun x hx => h x (by simp [hx])

theorem rowDate_empty {cy : Nat} {cols : ColAssign} {texts : List String}
    (h : ∀ t ∈ texts, parse_date cy t = "") : rowDate cy cols texts = "" := by
  have hd : (match getCell texts cols.date with | some c => parse_date cy c | none => "") = "" := by
    cases hg : getCell texts cols.date with
    | none => rfl
    | some c => exact h c (getCell_mem hg)
  simp only [rowDate, hd, if_pos]
  exact firstDate_empty h

theorem processRow_no_date {cy : Nat} {school : String} {cols : ColAssign} {texts : List String}
    (h : ∀ t ∈ texts, parse_date cy t = "") : processRow cy school cols texts = none := by
  unfold processRow
  rw [rowDate_empty h]
  simp

theorem processListItem_no_date {cy : Nat} {school text : String}
    (h : parse_date cy text = "") : processListItem cy school text = none := by
  simp [processListItem, h]

theorem processListItem_fields {cy : Nat} {school text : String} {g : Game}
    (h : processListItem cy school text = some g) : g.date ≠ "" ∧ g.opponent ≠ "" := by
  simp only [processListItem] at h
  split at h
  · cases h
  · rename_i hdate
    split at h
    · rename_i oppChars
      split at h
      · cases h
      · rename_i hopp
        injection h with h
        subst h
        exact ⟨hdate, hopp⟩
    · cases h

/-- C3 counterexample: the list-layout fallback does not apply the two-character
minimum — the fragment "Jan 5 at A 7:00" yields a record whose cleaned
opponent "A" is shorter than two characters, where the claim demands that no
record be emitted. -/
theorem C3_counterexample :
    processListItem 2026 "S" "Jan 5 at A 7:00" =
      some { school := "S", date := "2026-01-05", time := "7:00 PM", opponent := "A",
             home_away := "Away", location := "", tv := "", result := "",
             division := "", espn_team_id := "", last_updated := "" }
    ∧ ("A" : String).length < 2 :=
  ⟨rfl, by decide⟩

/-- C3 (amended): a table row none of whose cells normalizes to a non-empty
date is discarded, and a table row whose cleaned opponent is empty or shorter
than two characters is discarded; a list fragment without a date or with an
empty extracted opponent is discarded, but the two-character minimum applies
only to table rows.  Every surviving record has a non-empty date and a
non-empty opponent (with length at least two for table rows). -/
theorem C3_discard_invariant :
    (∀ (cy : Nat) (school : String) (cols : ColAssign) (texts : List String),
      (∀ t ∈ texts, parse_date cy t = "") → processRow cy school cols texts = none)
    ∧ (∀ (cy : Nat) (school : String) (cols : ColAssign) (texts : List String) (g : Game),
        processRow cy school cols texts = some g →
        g.date ≠ "" ∧ g.opponent ≠ "" ∧ 2 ≤ g.opponent.length)
    ∧ (∀ (cy : Nat) (school text : String),
        parse_date cy text = "" → processListItem cy school text = none)
    ∧ (∀ (cy : Nat) (school text : String) (g : Game),
        processListItem cy school text = some g → g.date ≠ "" ∧ g.opponent ≠ "") :=
  ⟨fun _ _ _ _ h => processRow_no_date h,
   fun _ _ _ _ _ h => processRow_some_fields h,
   fun _ _ _ h => processListItem_no_date h,
   fun _ _ _ _ h => processListItem_fields h⟩

/-- C3 witness: the discard conjunct at a row with no parsable date, and the
survivor conjunct at a surviving doubleheader row. -/
theorem C3_discard_invariant_witness :
    processRow 2026 "S" ⟨none, none, none, none, none, none⟩ ["alpha", "beta"] = none
    ∧ (({ school := "S", date := "2026-03-14", time := "TBD", opponent := "Clemson",
          home_away := "Away", location := "", tv := "", result := "",
          division := "", espn_team_id := "", last_updated := "" } : Game).date ≠ ""
       ∧ ({ school := "S", date := "2026-03-14", time := "TBD", opponent := "Clemson",
            home_away := "Away", location := "", tv := "", result := "",
            division := "", espn_team_id := "", last_updated := "" } : Game).opponent ≠ ""
       ∧ 2 ≤ ({ school := "S", date := "2026-03-14", time := "TBD", opponent := "Clemson",
                home_away := "Away", location := "", tv := "", result := "",
                division := "", espn_team_id := "", last_updated := "" } : Game).opponent.length) :=
  ⟨C3_discard_invariant.1 2026 "S" ⟨none, none, none, none, none, none⟩ ["alpha", "beta"]
      (by decide),
   C3_discard_invariant.2.1 2026 "S" ⟨none, some 1, none, none, none, none⟩
      ["3/14/2026", "at Clemson"] _ rfl⟩

theorem time1At_no_digit {c : Char} {t : List Char} (hc : isDigitC c = false) :
    time1At (c :: t) = none := by
  simp [time1At, hc]

theorem time1Search_no_digit {l : List Char} (h : ∀ c ∈ l, isDigitC c = false) :
    time1Search l = none := by
  induction l with
  | nil => rfl
  | cons c t ih =>
    have ht : time1At (c :: t) = none := time1At_no_digit (h c (by simp))
    simp only [time1Search, ht]
    exact ih fun x hx => h x (by simp [hx])

theorem time2At_no_digit {prev : Option Char} {c : Char} {t : List Char}
    (hc : isDigitC c = false) : time2At prev (c :: t) = none := by
  unfold time2At
  split
  · rfl
  · simp [hc]

theorem time2Search_no_digit {l : List Char} (h : ∀ c ∈ l, isDigitC c = false) :
    ∀ prev, time2Search prev l = none := by
  induction l with
  | nil => intro prev; rfl
  | cons c t ih =>
    intro prev
    have ht : time2At prev (c :: t) = none := time2At_no_digit (h c (by simp))
    simp only [time2Search, ht]
    exact ih (fun x hx => h x (by simp [hx])) (some c)

/-- C5 counterexample: time normalization maps "18:00" to "6:00 AM", not to
"6:00 PM" as the claim states — by the meridiem-absent rule, hour 18 is
outside 1-7, so AM is inferred. -/
theorem C5_counterexample : ¬ (parse_time "18:00" = "6:00 PM") := by
  decide

/-- C5 (amended): time normalization returns "TBD" for every input containing
no digit (hence no time information), normalizes "18:00" to "6:00 AM"
(meridiem absent and hour 18 outside 1-7 infers AM), normalizes "6 PM" to
"6:00 PM", and — whenever the colon time pattern matches with no meridiem
marker — renders the hour modulo twelve with PM exactly for hour values 1-7
and AM otherwise. -/
theorem C5_time_normalization :
    parse_time "18:00" = "6:00 AM"
    ∧ parse_time "6 PM" = "6:00 PM"
    ∧ (∀ t : String, (∀ c ∈ t.data, isDigitC c = false) → parse_time t = "TBD")
    ∧ (∀ (t : String) (g1 mn : List Char),
        time1Search t.data = some (g1, mn, none) →
        parse_time t =
          toString (if digitsVal g1 % 12 == 0 then 12 else digitsVal g1 % 12) ++ ":" ++
            (⟨mn⟩ : String) ++ " " ++
            (if 1 ≤ digitsVal g1 ∧ digitsVal g1 ≤ 7 then "PM" else "AM")) := by
  refine ⟨rfl, rfl, ?_, ?_⟩
  · intro t h
    unfold parse_time
    rw [time1Search_no_digit h, time2Search_no_digit h none]
  · intro t g1 mn h
    simp only [parse_time, h]

/-- C5 witness: the no-digit conjunct at "TBA" and the inference conjunct at
"18:00". -/
theorem C5_time_normalization_witness :
    parse_time "TBA" = "TBD"
    ∧ parse_time "18:00" =
        toString (if digitsVal ['1', '8'] % 12 == 0 then 12 else digitsVal ['1', '8'] % 12) ++ ":" ++
          (⟨['0', '0']⟩ : String) ++ " " ++
          (if 1 ≤ digitsVal ['1', '8'] ∧ digitsVal ['1', '8'] ≤ 7 then "PM" else "AM") :=
  ⟨C5_time_normalization.2.2.1 "TBA" (by decide),
   C5_time_normalization.2.2.2 "18:00" ['1', '8'] ['0', '0'] (by decide)⟩

/-- C6 counterexample: a bare leading at-sign is not stripped — the opponent
cleaning only removes "@" when it follows "at", so "@ Clemson" cleans to
"@ Clemson", not to "Clemson" as the claim implies for a leading "@" marker. -/
theorem C6_counterexample :
    cleanOpponent "@ Clemson" = "@ Clemson" ∧ cleanOpponent "@ Clemson" ≠ "Clemson" :=
  ⟨rfl, by decide⟩

/-- C6 (amended): opponent cleaning strips a leading "vs."/"vs"/"at " marker
("@" is stripped only when it follows "at"; a bare leading "@" is kept,
though it still forces Away in home/away inference), strips a trailing
win/loss-and-score suffix, and rows whose cleaned name is shorter than two
characters are rejected; in particular "at Clemson W 7-3" yields opponent
"Clemson" with home_away Away and the trailing result stripped. -/
theorem C6_opponent_cleaning :
    cleanOpponent "at Clemson W 7-3" = "Clemson"
    ∧ cleanOpponent "vs. Duke" = "Duke"
    ∧ cleanOpponent "at @ Clemson" = "Clemson"
    ∧ origAway "at Clemson W 7-3" = true
    ∧ (∀ cy : Nat, processRow cy "S" ⟨some 0, some 1, none, none, none, none⟩
        ["3/14/2026", "at Clemson W 7-3"] =
        some { school := "S", date := "2026-03-14", time := "TBD", opponent := "Clemson",
               home_away := "Away", location := "", tv := "", result := "W 7-3",
               division := "", espn_team_id := "", last_updated := "" })
    ∧ (∀ (cy : Nat) (school : String) (cols : ColAssign) (texts : List String) (g : Game),
        processRow cy school cols texts = some g → 2 ≤ g.opponent.length) :=
  ⟨rfl, rfl, rfl, rfl, fun _ => rfl,
   fun _ _ _ _ _ h => (processRow_some_fields h).2.2⟩

/-- C6 witness: the length bound instantiated at the surviving
"at Clemson W 7-3" row. -/
theorem C6_opponent_cleaning_witness :
    2 ≤ ({ school := "S", date := "2026-03-14", time := "TBD", opponent := "Clemson",
           home_away := "Away", location := "", tv := "", result := "W 7-3",
           division := "", espn_team_id := "", last_updated := "" } : Game).opponent.length :=
  C6_opponent_cleaning.2.2.2.2.2 2026 "S" ⟨some 0, some 1, none, none, none, none⟩
    ["3/14/2026", "at Clemson W 7-3"] _ rfl

theorem dget_dset (d : SDict) (k v k2 : String) :
    dget (dset d k v) k2 = if k2 = k then some v else dget d k2 := by
  induction d with
  | nil => simp [dset, dget]
  | cons p rest ih =>
    obtain ⟨k0, v0⟩ := p
    by_cases he : k0 = k
    · subst he
      simp only [dset, if_pos rfl, dget]
      by_cases h2 : k2 = k0 <;> simp [h2]
    · simp only [dset, if_neg he, dget]
      by_cases h2 : k2 = k0
      · rw [h2]
        simp [he]
      · simp [h2, ih]

theorem dget_dset_ne {out : SDict} {d : String} (k v : String) (h : dget out d ≠ none) :
    dget (dset out k v) d ≠ none := by
  rw [dget_dset]
  split
  · simp
  · exact h

theorem dget_dset_zero {out : SDict} {d : String} (k : String)
    (h : dget out d = some "0") : dget (dset out k "0") d = some "0" := by
  rw [dget_dset]
  split
  · rfl
  · exact h

theorem mapRowBase_mem (cm : ColMap) : ∀ (out : SDict) (raw : SDict) (d : String),
    (dget out d ≠ none ∨ d ∈ destCols cm) → dget (mapRowBase raw cm out) d ≠ none := by
  induction cm with
  | nil =>
    intro out raw d h
    rcases h with h | h
    · exact h
    · simp [destCols] at h
  | cons p rest ih =>
    obtain ⟨src, dest⟩ := p
    intro out raw d h
    cases dest with
    | single s =>
      show dget (mapRowBase raw rest (dset out s (dgetD raw src ""))) d ≠ none
      apply ih
      rcases h with h | h
      · exact Or.inl (dget_dset_ne _ _ h)
      · rcases List.mem_cons.mp h with rfl | h2
        · left
          rw [dget_dset]
          simp
        · exact Or.inr h2
    | pair a b =>
      show dget (mapRowBase raw rest _) d ≠ none
      apply ih
      rcases h with h | h
      · exact Or.inl (dget_dset_ne _ _ (dget_dset_ne _ _ h))
      · rcases List.mem_cons.mp h with rfl | h2
        · left
          apply dget_dset_ne
          rw [dget_dset]
          simp
        · rcases List.mem_cons.mp h2 with rfl | h3
          · left
            rw [dget_dset]
            simp
          · exact Or.inr h3

theorem zero_stats_mem (cm : ColMap) : ∀ (out : SDict) (d : String),
    (dget out d = some "0" ∨ d ∈ destCols cm) → dget (zero_stats cm out) d = some "0" := by
  induction cm with
  | nil =>
    intro out d h
    rcases h with h | h
    · exact h
    · simp [destCols] at h
  | cons p rest ih =>
    obtain ⟨src, dest⟩ := p
    cases dest with
    | single s =>
      intro out d h
      show dget (zero_stats rest (dset out s "0")) d = some "0"
      apply ih
      rcases h with h | h
      · exact Or.inl (dget_dset_zero _ h)
      · rcases List.mem_cons.mp h with rfl | h2
        · left
          rw [dget_dset]
          simp
        · exact Or.inr h2
    | pair a b =>
      intro out d h
      show dget (zero_stats rest (dset (dset out a "0") b "0")) d = some "0"
      apply ih
      rcases h with h | h
      · exact Or.inl (dget_dset_zero _ (dget_dset_zero _ h))
      · rcases List.mem_cons.mp h with rfl | h2
        · left
          apply dget_dset_zero
          rw [dget_dset]
          simp
        · rcases List.mem_cons.mp h2 with rfl | h3
          · left
            rw [dget_dset]
            simp
          · exact Or.inr h3

theorem pitchBlock_pres {out : SDict} {d : String} (h : dget out d ≠ none) :
    dget (pitchBlock out) d ≠ none := by
  simp only [pitchBlock]
  repeat' split
  all_goals repeat' apply dget_dset_ne
  all_goals exact h

theorem batBlock_pres {out : SDict} {d : String} (h : dget out d ≠ none) :
    dget (batBlock out) d ≠ none := by
  simp only [batBlock]
  repeat' split
  all_goals repeat' apply dget_dset_ne
  all_goals exact h

theorem opsFix_pres {out : SDict} {d : String} (h : dget out d ≠ none) :
    dget (opsFix out) d ≠ none := by
  simp only [opsFix]
  repeat' split
  all_goals repeat' apply dget_dset_ne
  all_goals exact h

theorem map_row_mem (raw : SDict) (cm : ColMap) (d : String) (h : d ∈ destCols cm) :
    dget (map_row raw cm) d ≠ none := by
  unfold map_row
  apply opsFix_pres
  apply batBlock_pres
  apply pitchBlock_pres
  exact mapRowBase_mem cm [] raw d (Or.inr h)

theorem scrapeRows_miss {jersey : String} {hdrs : List String} {cm : ColMap} :
    ∀ rows : List (List String),
    (∀ cells ∈ rows, cells ≠ [] → pyStrip (cells.headD "") ≠ jersey) →
    scrapeRows jersey hdrs cm rows = zero_stats cm [] := by
  intro rows
  induction rows with
  | nil => intro _; rfl
  | cons cells rest ih =>
    intro h
    unfold scrapeRows
    split
    · exact ih fun x hx hne => h x (by simp [hx]) hne
    · rename_i hne
      rw [if_neg (h cells (by simp) hne)]
      exact ih fun x hx hne2 => h x (by simp [hx]) hne2

/-- C8 counterexample: the derived column ISO is declared in the batting
schema but absent from the mapping map_row produces when the raw values do
not parse (an empty raw row), refuting the claim that every declared column
is present in the record mapping. -/
theorem C8_counterexample :
    ("ISO" ∈ BATTING_COLS) ∧ dget (map_row [] BATTING_MAP) "ISO" = none :=
  ⟨by decide, by decide⟩

/-- C8 (amended): every destination column of a category source map is
present in the mapping map_row produces, with missing raw values mapped to
the empty string; derived columns (ISO, BABIP, the rate stats) are present
only when computable; the persisted row nevertheless always carries exactly
one value per declared schema column in fixed order, because the writer
substitutes the empty string for absent mapping keys. -/
theorem C8_schema_columns :
    (∀ (raw : SDict) (cm : ColMap) (d : String),
      d ∈ destCols cm → dget (map_row raw cm) d ≠ none)
    ∧ dget (map_row [] BATTING_MAP) "AB" = some ""
    ∧ (∀ (now pid name school division : String) (mapped : SDict) (cols : List String),
        (statRow now pid name school division mapped cols).length = 5 + cols.length) := by
  refine ⟨map_row_mem, by decide, ?_⟩
  intro now pid name school division mapped cols
  simp [statRow]
  omega

/-- C8 witness: the presence conjunct instantiated at the batting map and
column G. -/
theorem C8_schema_columns_witness :
    dget (map_row [] BATTING_MAP) "G" ≠ none :=
  C8_schema_columns.1 [] BATTING_MAP "G" (by decide)

/-- C9: for every player whose jersey number is blank, whose stat table is
missing from the page, or whose jersey matches no data row of the found
table, scrape returns the complete zero_stats mapping — every mapped column
set to the string "0" — so failures persist as all-zero stat rows instead of
being skipped or raising. -/
theorem C9_zero_fallback :
    (∀ (stat_type : StatType) (tables : List PTable) (j : String),
      pyStrip j = "" → scrape j tables stat_type = zero_stats (colMapOf stat_type) [])
    ∧ (∀ (stat_type : StatType) (tables : List PTable) (j : String),
      find_table tables stat_type = none →
      scrape j tables stat_type = zero_stats (colMapOf stat_type) [])
    ∧ (∀ (stat_type : StatType) (tables : List PTable) (j : String) (tbl : PTable) (hdrs : List String),
      find_table tables stat_type = some (tbl, hdrs) →
      (∀ cells ∈ tbl.tail, cells ≠ [] → pyStrip (cells.headD "") ≠ pyStrip j) →
      scrape j tables stat_type = zero_stats (colMapOf stat_type) [])
    ∧ (∀ (cm : ColMap) (d : String), d ∈ destCols cm → dget (zero_stats cm []) d = some "0") := by
  refine ⟨?_, ?_, ?_, ?_⟩
  · intro st tables j h
    unfold scrape
    rw [h]
    simp
  · intro st tables j h
    simp only [scrape, h]
    split <;> rfl
  · intro st tables j tbl hdrs hft h
    simp only [scrape, hft]
    split
    · rfl
    · exact scrapeRows_miss tbl.tail h
  · intro cm d h
    exact zero_stats_mem cm [] d (Or.inr h)

/-- C9 witness: the blank-jersey conjunct at a whitespace jersey and the
zero-mapping conjunct at the pitching map and column ERA. -/
theorem C9_zero_fallback_witness :
    scrape "  " [] StatType.batting = zero_stats (colMapOf StatType.batting) []
    ∧ dget (zero_stats PITCHING_MAP []) "ERA" = some "0" :=
  ⟨C9_zero_fallback.1 StatType.batting [] "  " (by decide),
   C9_zero_fallback.2.2.2 PITCHING_MAP "ERA" (by decide)⟩
